import Mathlib

/-!
Shallow embedding of the incremental style resolution engine in
`src/components/style/matching.rs` (servo's style crate), together with
theorems checking the natural-language specification against it.

The embedding models the element tree, the computed-value sets and the
external collaborators (rule tree, damage comparator, stylist) as opaque
data carried by the structures below; every function mirrors the control
flow of its Rust counterpart.  `Arc<T>` pointers are modelled by natural
number identifiers (pointer equality becomes `Nat` equality), bitflag
sets by `Nat` bit masks, and fallible code (Rust `unwrap`) by `Option`.
-/

namespace Servo

/-- The computed-value set (`ComputedValues`), restricted to the fields the
code under scrutiny reads: whether the box style's `display` computes to
`none`, whether the generated-content property is ineffective, whether the
box style specifies transitions/animations, and an opaque residue `other`
standing for every remaining property. -/
structure ComputedValuesD where
  display_is_none : Bool
  ineffective_content : Bool
  specifies_transitions : Bool
  specifies_animations : Bool
  other : Nat
deriving DecidableEq, Repr

/-- A reference-counted computed-value set (`Arc<ComputedValues>`): a pointer
identity `ref` plus the value it points at. -/
structure ArcValues where
  ref : Nat
  vals : ComputedValuesD
deriving DecidableEq, Repr

/-- `ComputedStyle`: a rule node reference plus the optional resolved value
set (`None` only transiently, between matching and cascading). -/
structure ComputedStyleC where
  rules : Nat
  values : Option ArcValues
deriving DecidableEq, Repr

/-- `RestyleDamage` is an external bitflag set; we model it as a `Nat` bit
mask.  The empty damage. -/
def RestyleDamage.empty : Nat := 0

/-- `RestyleDamage::reconstruct()`: the (host-defined) full-reconstruction
damage value.  Its exact bits are owned by the external `selector_parser`
collaborator; only its role as a fixed bit mask matters here. -/
def RestyleDamage.reconstruct : Nat := 31

/-- Rust bitflags `a.contains(b)`: every bit of `x` is present in `d`. -/
def bitsContain (d x : Nat) : Bool := x &&& d == x

/-- `StyleChange`. -/
inductive StyleChangeS
  | Unchanged
  | Changed
deriving DecidableEq, Repr

/-- `StyleDifference`. -/
structure StyleDifferenceS where
  damage : Nat
  change : StyleChangeS
deriving DecidableEq, Repr

/-- `ChildCascadeRequirement`. -/
inductive ChildCascadeRequirementS
  | CanSkipCascade
  | MustCascade
deriving DecidableEq, Repr

/-- The `From<StyleChange> for ChildCascadeRequirement` impl. -/
def childCascadeOfChange : StyleChangeS → ChildCascadeRequirementS
  | .Unchanged => .CanSkipCascade
  | .Changed => .MustCascade

/-- A pseudo-element (`PseudoElement`), identified by `kind`, with the two
classification queries the code uses. -/
structure PseudoElementD where
  kind : Nat
  is_eager : Bool
  is_before_or_after : Bool
deriving DecidableEq, Repr

/-- The feature-conditional host environment: which of the two compiled
variants (`gecko` vs `servo`) is active, and the external damage comparator
`RestyleDamage::compute_style_difference(source, new_values)`. -/
structure Host where
  feature_gecko : Bool
  damage_comparator : Nat → ComputedValuesD → StyleDifferenceS

/-- The slice of `SharedStyleContext` read by the code under scrutiny. -/
structure SharedContextD where
  disable_style_sharing_cache : Bool
  traversal_for_reconstruct : Bool
deriving DecidableEq, Repr

/-- `RestyleData`: pending damage plus damage already handled. -/
structure RestyleDataD where
  damage : Nat
  damage_handled : Nat
deriving DecidableEq, Repr

/-- `compute_style_difference` (matching.rs).  `damage_source` is the result
of the external `existing_style_for_restyle_damage(old_values, pseudo)`
query for this element. -/
def compute_style_difference (host : Host) (damage_source : Option Nat)
    (old_values new_values : ComputedValuesD) (pseudo : Option PseudoElementD) :
    StyleDifferenceS :=
  match damage_source with
  | some source => host.damage_comparator source new_values
  | none =>
    let new_style_is_display_none := new_values.display_is_none
    let old_style_is_display_none := old_values.display_is_none
    if new_style_is_display_none = true ∧ old_style_is_display_none = true then
      ⟨RestyleDamage.empty, .Unchanged⟩
    else if (match pseudo with
             | some p => p.is_before_or_after
             | none => false) = true then
      if (old_style_is_display_none || old_values.ineffective_content) = true ∧
         (new_style_is_display_none || new_values.ineffective_content) = true then
        ⟨RestyleDamage.empty, .Unchanged⟩
      else
        ⟨RestyleDamage.reconstruct, .Changed⟩
    else
      ⟨RestyleDamage.reconstruct, .Changed⟩

/-- `accumulate_damage_for`: the two feature-conditional variants, selected
by `host.feature_gecko` exactly as `cfg!(feature = ...)` selects them. -/
def accumulate_damage_for (host : Host) (shared : SharedContextD)
    (restyleData : RestyleDataD) (old_values new_values : ComputedValuesD)
    (pseudo : Option PseudoElementD) (damage_source : Option Nat) :
    ChildCascadeRequirementS × RestyleDataD :=
  if host.feature_gecko = true then
    if shared.traversal_for_reconstruct = true then
      (.MustCascade, restyleData)
    else
      let skip_applying_damage :=
        bitsContain restyleData.damage_handled RestyleDamage.reconstruct ||
        bitsContain restyleData.damage RestyleDamage.reconstruct
      let difference :=
        compute_style_difference host damage_source old_values new_values pseudo
      let restyleData' :=
        if skip_applying_damage = true then restyleData
        else { restyleData with damage := restyleData.damage ||| difference.damage }
      (childCascadeOfChange difference.change, restyleData')
  else
    let difference :=
      compute_style_difference host damage_source old_values new_values pseudo
    (childCascadeOfChange difference.change,
     { restyleData with damage := restyleData.damage ||| difference.damage })

/-- `accumulate_damage` (the wrapper): bails out with `MustCascade` when
there is no pending restyle record or no prior values, and in Gecko skips
the computation for existing `::before`/`::after` pseudos. -/
def accumulate_damage (host : Host) (shared : SharedContextD)
    (restyle : Option RestyleDataD) (old_values : Option ComputedValuesD)
    (new_values : ComputedValuesD) (pseudo : Option PseudoElementD)
    (damage_source : Option Nat) :
    ChildCascadeRequirementS × Option RestyleDataD :=
  match restyle with
  | none => (.MustCascade, none)
  | some restyleData =>
    match old_values with
    | none => (.MustCascade, some restyleData)
    | some old =>
      let is_existing_before_or_after :=
        host.feature_gecko &&
        (match pseudo with
         | some p => p.is_before_or_after
         | none => false) &&
        damage_source.isSome
      if is_existing_before_or_after = true then
        (.CanSkipCascade, some restyleData)
      else
        let res := accumulate_damage_for host shared restyleData old new_values
                     pseudo damage_source
        (res.1, some res.2)

/-- The damage stored in an optional restyle record (no record = no damage). -/
def storedDamage : Option RestyleDataD → Nat
  | none => 0
  | some r => r.damage

/-- InheritMode (matching.rs). -/
inductive InheritModeC
  | Normal
  | FromPrimaryStyle
deriving DecidableEq, Repr

/-- `AnimationRules(Option, Option)` is external (dom.rs); emptiness means
neither an animation nor a transition rule is present. -/
def animationRulesEmpty (ar : Option Nat × Option Nat) : Bool :=
  ar.1.isNone && ar.2.isNone

/-- `cascade_internal` (matching.rs).  `cascade_fn` stands for
`cascade_with_rules` (rule node, primary style, inherit mode); the eager
element-backed pseudo fast path returns the parent's stored pseudo style
without invoking it.  `parent_pseudos` is the parent `ElementData`'s pseudo
style map; `none` models the panicking `unwrap`s of the fast path. -/
def cascade_internal (cascade_fn : Nat → ComputedStyleC → InheritModeC → ArcValues)
    (implemented_pseudo : Option PseudoElementD)
    (animation_rules : Option Nat × Option Nat)
    (parent_pseudos : List (Nat × ComputedStyleC))
    (primary_style : ComputedStyleC)
    (eager_pseudo_style : Option ComputedStyleC) : Option ArcValues :=
  let fallback :=
    some (cascade_fn (eager_pseudo_style.getD primary_style).rules primary_style
      (if eager_pseudo_style.isSome then InheritModeC.FromPrimaryStyle
       else InheritModeC.Normal))
  match implemented_pseudo with
  | some pseudo =>
    if pseudo.is_eager = true ∧ animationRulesEmpty animation_rules = true then
      match List.lookup pseudo.kind parent_pseudos with
      | some pseudo_style => pseudo_style.values
      | none => none
    else fallback
  | none => fallback

/-- An element handle together with the answers the DOM/tree collaborator
gives for every query the style sharing code performs on it.  `parentId` is
the parent element handle, `parentValuesRef` the pointer identity of that
parent's primary computed values (used by `same_computed_values`), and
`revalidationResults` the bitset the stylist's
`match_revalidation_selectors` returns for this element.  `damage_source`
is the `existing_style_for_restyle_damage` answer for the element with no
pseudo. -/
structure Element where
  handle : Nat
  parentId : Option Nat
  parentValuesRef : Option Nat
  isNativeAnonymous : Bool
  localName : Nat
  nspace : Nat
  isLink : Bool
  matchesUserAndAuthorRules : Bool
  state : Nat
  idAttr : Option Nat
  styleAttr : Bool
  classList : List Nat
  presHints : Bool
  revalidationResults : List Bool
  primary : ComputedStyleC
  damage_source : Option Nat
deriving DecidableEq, Repr

/-- The four `StyleRelations` bits that decide shareability; the remaining
relation bits do not participate in `relations_are_shareable`. -/
structure StyleRelations where
  affected_by_id_selector : Bool
  affected_by_pseudo_elements : Bool
  affected_by_style_attribute : Bool
  affected_by_presentational_hints : Bool
deriving DecidableEq, Repr

/-- `relations_are_shareable` (matching.rs). -/
def relations_are_shareable (relations : StyleRelations) : Bool :=
  !(relations.affected_by_id_selector ||
    relations.affected_by_pseudo_elements ||
    relations.affected_by_style_attribute ||
    relations.affected_by_presentational_hints)

/-- `StyleSharingCandidate`: a previously styled element plus the two
lazily-cached fields. -/
structure StyleSharingCandidate where
  element : Element
  class_attributes : Option (List Nat)
  revalidation_match_results : Option (List Bool)
deriving DecidableEq, Repr

/-- `CacheMiss` (matching.rs). -/
inductive CacheMiss
  | Parent
  | NativeAnonymousContent
  | LocalName
  | Namespace
  | Link
  | UserAndAuthorRules
  | State
  | IdAttr
  | StyleAttr
  | Class
  | PresHints
  | Revalidation
deriving DecidableEq, Repr

/-- `same_computed_values`: pointer equality of the two parents' primary
value sets; `false` unless both parents exist. -/
def same_computed_values : Option Nat → Option Nat → Bool
  | some a, some b => a == b
  | _, _ => false

/-- `have_same_class`: fill the candidate's cached class list if absent and
compare order-sensitively with the element's. -/
def have_same_class (element : Element) (candidate : StyleSharingCandidate) :
    Bool × StyleSharingCandidate :=
  let attrs := candidate.class_attributes.getD candidate.element.classList
  (element.classList == attrs,
   { candidate with class_attributes := some attrs })

/-- `revalidate`: fill the element-side (`CurrentElementInfo`) and the
candidate-side cached revalidation bitsets if absent, then compare them.
The stylist's `match_revalidation_selectors` is modelled by each element's
`revalidationResults` field. -/
def revalidate (element : Element) (candidate : StyleSharingCandidate)
    (info : Option (List Bool)) :
    Bool × StyleSharingCandidate × Option (List Bool) :=
  let for_element := info.getD element.revalidationResults
  let for_candidate :=
    candidate.revalidation_match_results.getD candidate.element.revalidationResults
  (for_element == for_candidate,
   { candidate with revalidation_match_results := some for_candidate },
   some for_element)

/-- `element_matches_candidate` (matching.rs): the ordered short-circuit
chain of eleven checks.  Returns the match result together with the updated
candidate (its lazily-cached fields may be filled) and the updated
element-side revalidation cache. -/
def element_matches_candidate (element : Element)
    (candidate : StyleSharingCandidate) (info : Option (List Bool)) :
    Except CacheMiss ComputedStyleC × StyleSharingCandidate × Option (List Bool) :=
  if element.parentId ≠ candidate.element.parentId ∧
     same_computed_values element.parentValuesRef
       candidate.element.parentValuesRef = false then
    (.error .Parent, candidate, info)
  else if element.isNativeAnonymous = true then
    (.error .NativeAnonymousContent, candidate, info)
  else if element.localName ≠ candidate.element.localName then
    (.error .LocalName, candidate, info)
  else if element.nspace ≠ candidate.element.nspace then
    (.error .Namespace, candidate, info)
  else if element.isLink ≠ candidate.element.isLink then
    (.error .Link, candidate, info)
  else if element.matchesUserAndAuthorRules ≠
      candidate.element.matchesUserAndAuthorRules then
    (.error .UserAndAuthorRules, candidate, info)
  else if element.state ≠ candidate.element.state then
    (.error .State, candidate, info)
  else if element.idAttr ≠ candidate.element.idAttr then
    (.error .IdAttr, candidate, info)
  else if element.styleAttr = true then
    (.error .StyleAttr, candidate, info)
  else if (have_same_class element candidate).1 = false then
    (.error .Class, (have_same_class element candidate).2, info)
  else if element.presHints = true then
    (.error .PresHints, (have_same_class element candidate).2, info)
  else if (revalidate element (have_same_class element candidate).2 info).1 = false then
    (.error .Revalidation,
     (revalidate element (have_same_class element candidate).2 info).2.1,
     (revalidate element (have_same_class element candidate).2 info).2.2)
  else
    (.ok candidate.element.primary,
     (revalidate element (have_same_class element candidate).2 info).2.1,
     (revalidate element (have_same_class element candidate).2 info).2.2)

/-- Modelled from the spec: the LRU cache type of the external `cache`
module (declared but not under src).  A fixed-capacity list ordered from
most- to least-recently-touched. -/
structure LRUCacheS (α : Type) where
  entries : List α
  capacity : Nat
deriving DecidableEq, Repr

/-- Modelled from the spec: insertion places the new entry at the
most-recently-used position and evicts the least-recently-touched entry
when the capacity would be exceeded. -/
def LRUCacheS.insert {α : Type} (cache : LRUCacheS α) (x : α) : LRUCacheS α :=
  { cache with entries := (x :: cache.entries).take cache.capacity }

/-- Modelled from the spec: `touch(index)` moves the entry at `index` to the
most-recently-used position. -/
def LRUCacheS.touch {α : Type} (cache : LRUCacheS α) (index : Nat) : LRUCacheS α :=
  match cache.entries[index]? with
  | none => cache
  | some x => { cache with entries := x :: cache.entries.eraseIdx index }

/-- Modelled from the spec: `evict_all` removes every entry. -/
def LRUCacheS.evict_all {α : Type} (cache : LRUCacheS α) : LRUCacheS α :=
  { cache with entries := [] }

/-- `num_entries`. -/
def LRUCacheS.num_entries {α : Type} (cache : LRUCacheS α) : Nat :=
  cache.entries.length

/-- `STYLE_SHARING_CANDIDATE_CACHE_SIZE` (matching.rs). -/
def STYLE_SHARING_CANDIDATE_CACHE_SIZE : Nat := 8

/-- `StyleSharingCandidateCache::new`. -/
def StyleSharingCandidateCache.new : LRUCacheS StyleSharingCandidate :=
  ⟨[], STYLE_SHARING_CANDIDATE_CACHE_SIZE⟩

/-- `StyleSharingCandidateCache::insert_if_possible` (matching.rs). -/
def StyleSharingCandidateCache.insert_if_possible
    (cache : LRUCacheS StyleSharingCandidate) (element : Element)
    (style : ComputedValuesD) (relations : StyleRelations)
    (revalidation_match_results : Option (List Bool)) :
    LRUCacheS StyleSharingCandidate :=
  match element.parentId with
  | none => cache
  | some _ =>
    if element.isNativeAnonymous = true then cache
    else if relations_are_shareable relations = false then cache
    else if style.specifies_transitions = true then cache
    else if style.specifies_animations = true then cache
    else cache.insert ⟨element, none, revalidation_match_results⟩

/-- The arguments of one `insert_if_possible` call. -/
structure InsertArgs where
  element : Element
  style : ComputedValuesD
  relations : StyleRelations
  reval : Option (List Bool)
deriving DecidableEq, Repr

/-- Whether `insert_if_possible` rejects this call (silent no-op). -/
def insertRejected (it : InsertArgs) : Bool :=
  it.element.parentId.isNone || it.element.isNativeAnonymous ||
  !relations_are_shareable it.relations ||
  it.style.specifies_transitions || it.style.specifies_animations

/-- The candidate record an admitted `insert_if_possible` call stores. -/
def mkCandidate (it : InsertArgs) : StyleSharingCandidate :=
  ⟨it.element, none, it.reval⟩

/-- A sequence of `insert_if_possible` calls. -/
def insertAll (items : List InsertArgs)
    (cache : LRUCacheS StyleSharingCandidate) : LRUCacheS StyleSharingCandidate :=
  items.foldl
    (fun c it =>
      StyleSharingCandidateCache.insert_if_possible c it.element it.style
        it.relations it.reval) cache

/-- `ElementStyles`: primary style plus the pseudo style map;
`ElementStyles::new(shared_style)` leaves the map empty. -/
structure ElementStylesS where
  primary : ComputedStyleC
  pseudos : List (Nat × ComputedStyleC)
deriving DecidableEq, Repr

/-- `ElementData`: styles plus the optional restyle record. -/
structure ElementDataS where
  styles : Option ElementStylesS
  restyle : Option RestyleDataD
deriving DecidableEq, Repr

/-- `StyleSharingResult`. -/
inductive StyleSharingResultS
  | CannotShare
  | StyleWasShared (index : Nat) (req : ChildCascadeRequirementS)
deriving DecidableEq, Repr

/-- The state produced by the candidate scan of `share_style_if_possible`:
the result, the (in-place mutated) candidate list, whether the
`Parent`-miss flag requests a cache clear, the element-side revalidation
cache, and the element's data. -/
structure ScanState where
  result : StyleSharingResultS
  cands : List StyleSharingCandidate
  should_clear : Bool
  info : Option (List Bool)
  data : ElementDataS
deriving DecidableEq, Repr

/-- The candidate scan loop of `share_style_if_possible` (matching.rs,
the `for (i, candidate) in cache.iter_mut().enumerate()` loop).  `none`
models the panicking `values()` unwrap on a hit against a candidate whose
values are still unset. -/
def scanLoop (host : Host) (element : Element) (shared : SharedContextD)
    (data : ElementDataS) :
    Option (List Bool) → Nat → List StyleSharingCandidate → Option ScanState
  | info, _, [] => some ⟨.CannotShare, [], false, info, data⟩
  | info, i, c :: rest =>
    match element_matches_candidate element c info with
    | (.ok shared_style, c', info') =>
      match shared_style.values with
      | none => none
      | some newArc =>
        let old_values := (data.styles.bind fun s => s.primary.values)
        let acc := accumulate_damage host shared data.restyle
          (old_values.map (fun v => v.vals)) newArc.vals none element.damage_source
        some ⟨.StyleWasShared i acc.1, c' :: rest, false, info',
          { styles := some ⟨shared_style, []⟩, restyle := acc.2 }⟩
    | (.error .Parent, c', info') =>
      some ⟨.CannotShare, c' :: rest, true, info', data⟩
    | (.error .PresHints, c', info') =>
      some ⟨.CannotShare, c' :: rest, false, info', data⟩
    | (.error .Revalidation, c', info') =>
      some ⟨.CannotShare, c' :: rest, false, info', data⟩
    | (.error _, c', info') =>
      (scanLoop host element shared data info' (i + 1) rest).map
        (fun s => { s with cands := c' :: s.cands })

/-- `share_style_if_possible` (matching.rs): the entry guards followed by
the candidate scan; on a `Parent` miss the cache is cleared after the
scan. -/
def share_style_if_possible (host : Host) (element : Element)
    (shared : SharedContextD) (cache : LRUCacheS StyleSharingCandidate)
    (info : Option (List Bool)) (data : ElementDataS) :
    Option (StyleSharingResultS × LRUCacheS StyleSharingCandidate ×
            Option (List Bool) × ElementDataS) :=
  if shared.disable_style_sharing_cache = true then
    some (.CannotShare, cache, info, data)
  else if element.parentId.isNone = true then
    some (.CannotShare, cache, info, data)
  else if element.isNativeAnonymous = true then
    some (.CannotShare, cache, info, data)
  else if element.styleAttr = true then
    some (.CannotShare, cache, info, data)
  else if element.idAttr.isSome = true then
    some (.CannotShare, cache, info, data)
  else
    (scanLoop host element shared data info 0 cache.entries).map
      (fun s =>
        (s.result,
         if s.should_clear then cache.evict_all
         else { cache with entries := s.cands },
         s.info, s.data))

/-- Classification of one match attempt, as the scan loop reacts to it:
a hit, a `Parent` miss (clear and stop), an expensive miss (stop), or any
other miss (advance). -/
inductive MissClass
  | hit
  | parent
  | stop
  | cont
deriving DecidableEq, Repr

/-- The class of the attempt against one candidate. -/
def stepClass (element : Element) (info : Option (List Bool))
    (candidate : StyleSharingCandidate) : MissClass :=
  match (element_matches_candidate element candidate info).1 with
  | .ok _ => .hit
  | .error .Parent => .parent
  | .error .PresHints => .stop
  | .error .Revalidation => .stop
  | .error _ => .cont

/-- The entry guards of `share_style_if_possible` all pass. -/
def entryGuardsPass (element : Element) (shared : SharedContextD) : Prop :=
  shared.disable_style_sharing_cache = false ∧
  element.parentId.isSome = true ∧
  element.isNativeAnonymous = false ∧
  element.styleAttr = false ∧
  element.idAttr = none

instance (element : Element) (shared : SharedContextD) :
    Decidable (entryGuardsPass element shared) := by
  unfold entryGuardsPass
  infer_instance

/-- A concrete computed-value set: rendered, no transitions or animations. -/
def sampleVals : ComputedValuesD := ⟨false, false, false, false, 0⟩

/-- A concrete element that passes every entry guard. -/
def sampleElement : Element :=
  { handle := 0, parentId := some 0, parentValuesRef := some 100
    isNativeAnonymous := false, localName := 1, nspace := 1, isLink := false
    matchesUserAndAuthorRules := false, state := 0, idAttr := none
    styleAttr := false, classList := [], presHints := false
    revalidationResults := [false], primary := ⟨1, some ⟨10, sampleVals⟩⟩
    damage_source := none }

/-- A candidate differing from `sampleElement` only in local name: its match
attempt misses with `LocalName`, an advance-to-next-candidate miss. -/
def candLocalName : StyleSharingCandidate :=
  ⟨{ sampleElement with
     handle := 20
     localName := 2
     primary := ⟨2, some ⟨20, sampleVals⟩⟩ }, none, none⟩

/-- A candidate under a different parent with different parent values: its
match attempt misses with `Parent`. -/
def candParent : StyleSharingCandidate :=
  ⟨{ sampleElement with
     handle := 22
     parentId := some 1
     parentValuesRef := some 200
     primary := ⟨4, some ⟨40, sampleVals⟩⟩ },
   none, none⟩

/-- A candidate differing from `sampleElement` only in its revalidation
bitset: its match attempt misses with `Revalidation`, a stop-the-scan
miss. -/
def candRevalidation : StyleSharingCandidate :=
  ⟨{ sampleElement with
     handle := 23
     revalidationResults := [true]
     primary := ⟨5, some ⟨41, sampleVals⟩⟩ }, none, none⟩

/-- A candidate equivalent to `sampleElement` on all eleven checks: its
match attempt succeeds. -/
def candHit : StyleSharingCandidate :=
  ⟨{ sampleElement with
     handle := 21
     primary := ⟨3, some ⟨50, sampleVals⟩⟩ }, none, none⟩

/-- A concrete element data record with styles and a pending restyle. -/
def sampleData : ElementDataS :=
  ⟨some ⟨⟨1, some ⟨10, sampleVals⟩⟩, []⟩, some ⟨0, 0⟩⟩

/-- A concrete servo-variant host whose external damage comparator always
answers "no damage". -/
def sampleHost : Host := ⟨false, fun _ _ => ⟨0, .Unchanged⟩⟩

/-- A concrete shared context with style sharing enabled. -/
def sampleShared : SharedContextD := ⟨false, false⟩

/-- A concrete shared context with style sharing disabled. -/
def sampleSharedDisabled : SharedContextD := ⟨true, false⟩

/-- An element carrying the id attribute `5`, otherwise identical to
`sampleElement`. -/
def sampleElementWithId : Element := { sampleElement with idAttr := some 5 }

/-- A candidate whose element carries the same id attribute `5` and matches
`sampleElementWithId` on every other dimension. -/
def candSameId : StyleSharingCandidate :=
  ⟨{ sampleElement with
     handle := 24
     idAttr := some 5
     primary := ⟨6, some ⟨60, sampleVals⟩⟩ }, none, none⟩

/-- A family of shareable insertion calls, one per element handle. -/
def sampleInsertArgs (i : Nat) : InsertArgs :=
  ⟨{ sampleElement with handle := i }, sampleVals,
   ⟨false, false, false, false⟩, none⟩

/-- Bitwise containment of damage masks, as a proposition. -/
def damageSubset (a b : Nat) : Prop :=
  ∀ i, a.testBit i = true → b.testBit i = true

theorem damageSubset_refl (a : Nat) : damageSubset a a := fun _ h => h

theorem damageSubset_trans {a b c : Nat}
    (h₁ : damageSubset a b) (h₂ : damageSubset b c) : damageSubset a c :=
  fun i h => h₂ i (h₁ i h)

theorem damageSubset_lor_left (a x : Nat) : damageSubset a (a ||| x) := by
  intro i h
  simp [Nat.testBit_or, h]

theorem bitsContain_iff (d x : Nat) :
    bitsContain d x = true ↔ damageSubset x d := by
  constructor
  · intro h i hxi
    have hx : x &&& d = x := by simpa [bitsContain] using h
    have hbit : (x &&& d).testBit i = x.testBit i := by rw [hx]
    rw [Nat.testBit_and, hxi, Bool.true_and] at hbit
    exact hbit
  · intro hsub
    have hx : x &&& d = x := by
      apply Nat.eq_of_testBit_eq
      intro i
      rw [Nat.testBit_and]
      cases hxi : x.testBit i with
      | false => simp
      | true => simp [hsub i hxi]
    simpa [bitsContain] using hx

theorem bitsContain_of_damageSubset {d d' x : Nat}
    (hsub : damageSubset d d') (h : bitsContain d x = true) :
    bitsContain d' x = true :=
  (bitsContain_iff d' x).mpr
    (damageSubset_trans ((bitsContain_iff d x).mp h) hsub)

theorem accumulate_damage_for_subset (host : Host) (shared : SharedContextD)
    (r : RestyleDataD) (old new_values : ComputedValuesD)
    (pseudo : Option PseudoElementD) (ds : Option Nat) :
    damageSubset r.damage
      (accumulate_damage_for host shared r old new_values pseudo ds).2.damage := by
  unfold accumulate_damage_for
  dsimp only
  split
  · split
    · exact damageSubset_refl _
    · dsimp only
      split
      · exact damageSubset_refl _
      · exact damageSubset_lor_left _ _
  · exact damageSubset_lor_left _ _

theorem accumulate_damage_subset (host : Host) (shared : SharedContextD)
    (restyle : Option RestyleDataD) (old_values : Option ComputedValuesD)
    (new_values : ComputedValuesD) (pseudo : Option PseudoElementD)
    (ds : Option Nat) :
    damageSubset (storedDamage restyle)
      (storedDamage (accumulate_damage host shared restyle old_values new_values
        pseudo ds).2) := by
  unfold accumulate_damage
  cases restyle with
  | none => exact damageSubset_refl _
  | some r =>
    cases old_values with
    | none => exact damageSubset_refl _
    | some old =>
      simp only
      split_ifs
      · exact damageSubset_refl _
      · simpa [storedDamage] using
          accumulate_damage_for_subset host shared r old new_values pseudo ds

/-- Claim C5: within one pass the stored restyle damage is monotone —
`accumulate_damage` only ever unions new damage into `RestyleData.damage`,
so one application, and hence two applications in sequence, never decrease
the stored damage; in particular, once the stored damage contains the
reconstruct mask it still contains it after any further application (so a
no-damage difference applied after a reconstruct-severity one leaves
reconstruct set). -/
theorem accumulate_damage_monotone :
    (∀ (host : Host) (shared : SharedContextD) (restyle : Option RestyleDataD)
       (old_values : Option ComputedValuesD) (new_values : ComputedValuesD)
       (pseudo : Option PseudoElementD) (ds : Option Nat),
       damageSubset (storedDamage restyle)
         (storedDamage
           (accumulate_damage host shared restyle old_values new_values pseudo
             ds).2)) ∧
    (∀ (host : Host) (shared : SharedContextD) (restyle : Option RestyleDataD)
       (o₁ : Option ComputedValuesD) (n₁ : ComputedValuesD)
       (p₁ : Option PseudoElementD) (d₁ : Option Nat)
       (o₂ : Option ComputedValuesD) (n₂ : ComputedValuesD)
       (p₂ : Option PseudoElementD) (d₂ : Option Nat),
       damageSubset (storedDamage restyle)
         (storedDamage
           (accumulate_damage host shared
             (accumulate_damage host shared restyle o₁ n₁ p₁ d₁).2
             o₂ n₂ p₂ d₂).2)) ∧
    (∀ (host : Host) (shared : SharedContextD) (r : RestyleDataD)
       (old_values : Option ComputedValuesD) (new_values : ComputedValuesD)
       (pseudo : Option PseudoElementD) (ds : Option Nat),
       bitsContain r.damage RestyleDamage.reconstruct = true →
       bitsContain
         (storedDamage
           (accumulate_damage host shared (some r) old_values new_values pseudo
             ds).2)
         RestyleDamage.reconstruct = true) := by
  refine ⟨accumulate_damage_subset, ?_, ?_⟩
  · intro host shared restyle o₁ n₁ p₁ d₁ o₂ n₂ p₂ d₂
    exact damageSubset_trans
      (accumulate_damage_subset host shared restyle o₁ n₁ p₁ d₁)
      (accumulate_damage_subset host shared _ o₂ n₂ p₂ d₂)
  · intro host shared r old_values new_values pseudo ds h
    exact bitsContain_of_damageSubset
      (accumulate_damage_subset host shared (some r) old_values new_values
        pseudo ds) h

/-- Witness for C5 at a concrete input: a record already carrying the full
reconstruct damage keeps it across a further application that computes a
no-damage difference. -/
theorem accumulate_damage_monotone_witness :
    bitsContain (⟨31, 0⟩ : RestyleDataD).damage RestyleDamage.reconstruct = true ∧
    bitsContain
      (storedDamage
        (accumulate_damage sampleHost sampleShared (some ⟨31, 0⟩)
          (some sampleVals) sampleVals none none).2)
      RestyleDamage.reconstruct = true :=
  ⟨by decide,
   accumulate_damage_monotone.2.2 sampleHost sampleShared ⟨31, 0⟩
     (some sampleVals) sampleVals none none (by decide)⟩

/-- Claim C6: `accumulate_damage` with no pending restyle record, or with no
prior computed values to compare, returns `MustCascade` without performing
any style comparison (the result does not depend on the host's comparator
or on the values) and without modifying the stored restyle record. -/
theorem accumulate_damage_skip_cases :
    (∀ (host : Host) (shared : SharedContextD)
       (old_values : Option ComputedValuesD) (new_values : ComputedValuesD)
       (pseudo : Option PseudoElementD) (ds : Option Nat),
       accumulate_damage host shared none old_values new_values pseudo ds =
         (ChildCascadeRequirementS.MustCascade, none)) ∧
    (∀ (host : Host) (shared : SharedContextD) (restyle : Option RestyleDataD)
       (new_values : ComputedValuesD) (pseudo : Option PseudoElementD)
       (ds : Option Nat),
       accumulate_damage host shared restyle none new_values pseudo ds =
         (ChildCascadeRequirementS.MustCascade, restyle)) := by
  constructor
  · intro host shared old_values new_values pseudo ds
    rfl
  · intro host shared restyle new_values pseudo ds
    cases restyle <;> rfl

/-- Claim C7: with no obtainable damage source, when the old and the new
computed `display` are both `none`, `compute_style_difference` returns
empty damage and `Unchanged`, whatever the other properties (and the
host's comparator) are. -/
theorem compute_style_difference_display_none
    (host : Host) (old_values new_values : ComputedValuesD)
    (pseudo : Option PseudoElementD)
    (hold : old_values.display_is_none = true)
    (hnew : new_values.display_is_none = true) :
    compute_style_difference host none old_values new_values pseudo =
      ⟨RestyleDamage.empty, StyleChangeS.Unchanged⟩ := by
  unfold compute_style_difference
  simp [hold, hnew]

/-- Witness for C7 at a concrete input: the two value sets differ in every
non-display field, yet the difference is empty/unchanged. -/
theorem compute_style_difference_display_none_witness :
    compute_style_difference sampleHost none
      ⟨true, false, false, false, 3⟩ ⟨true, true, true, true, 7⟩ none =
      ⟨RestyleDamage.empty, StyleChangeS.Unchanged⟩ :=
  compute_style_difference_display_none sampleHost
    ⟨true, false, false, false, 3⟩ ⟨true, true, true, true, 7⟩ none
    (by decide) (by decide)

/-- Claim C9: for an element implementing an eager pseudo-element whose
animation rules are empty, `cascade_internal` performs no cascade — the
result is the parent's already-cascaded pseudo style, reference-shared,
independently of the cascade function. -/
theorem cascade_internal_eager_pseudo_shares_parent
    (cascade_fn : Nat → ComputedStyleC → InheritModeC → ArcValues)
    (p : PseudoElementD) (animation_rules : Option Nat × Option Nat)
    (parent_pseudos : List (Nat × ComputedStyleC))
    (primary_style : ComputedStyleC)
    (eager_pseudo_style : Option ComputedStyleC)
    (pseudo_style : ComputedStyleC) (v : ArcValues)
    (heager : p.is_eager = true)
    (hanim : animationRulesEmpty animation_rules = true)
    (hlookup : List.lookup p.kind parent_pseudos = some pseudo_style)
    (hvals : pseudo_style.values = some v) :
    cascade_internal cascade_fn (some p) animation_rules parent_pseudos
      primary_style eager_pseudo_style = some v := by
  unfold cascade_internal
  simp [heager, hanim, hlookup, hvals]

/-- Witness for C9 at a concrete input: the parent's stored pseudo value set
(reference 7) is returned unchanged, for an arbitrary concrete cascade
function that would have produced reference 99. -/
theorem cascade_internal_eager_pseudo_shares_parent_witness :
    cascade_internal (fun _ _ _ => ⟨99, sampleVals⟩) (some ⟨3, true, false⟩)
      (none, none) [(3, ⟨5, some ⟨7, sampleVals⟩⟩)] ⟨1, none⟩ none =
      some ⟨7, sampleVals⟩ :=
  cascade_internal_eager_pseudo_shares_parent (fun _ _ _ => ⟨99, sampleVals⟩)
    ⟨3, true, false⟩ (none, none) [(3, ⟨5, some ⟨7, sampleVals⟩⟩)] ⟨1, none⟩
    none ⟨5, some ⟨7, sampleVals⟩⟩ ⟨7, sampleVals⟩
    (by decide) (by decide) (by decide) (by decide)

theorem insert_if_possible_eq (cache : LRUCacheS StyleSharingCandidate)
    (it : InsertArgs) :
    StyleSharingCandidateCache.insert_if_possible cache it.element it.style
      it.relations it.reval =
      if insertRejected it = true then cache else cache.insert (mkCandidate it) := by
  unfold StyleSharingCandidateCache.insert_if_possible insertRejected mkCandidate
  cases hp : it.element.parentId with
  | none => simp [hp]
  | some p => simp only [hp, Option.isNone_some, Bool.false_or]
              split_ifs <;> simp_all

theorem take_append_take {α : Type} (l t : List α) (n : Nat) :
    (l ++ t.take n).take n = (l ++ t).take n := by
  rw [List.take_append_eq_append_take, List.take_append_eq_append_take,
      List.take_take, Nat.min_eq_left (Nat.sub_le n l.length)]

theorem insertAll_entries (items : List InsertArgs) :
    ∀ cache : LRUCacheS StyleSharingCandidate,
      (∀ it ∈ items, insertRejected it = false) →
      cache.entries.length ≤ cache.capacity →
      (insertAll items cache).entries =
        ((items.map mkCandidate).reverse ++ cache.entries).take cache.capacity ∧
      (insertAll items cache).capacity = cache.capacity := by
  induction items with
  | nil =>
    intro cache _ hlen
    exact ⟨by simp [insertAll, List.take_of_length_le hlen], rfl⟩
  | cons it items ih =>
    intro cache h hlen
    have hit : insertRejected it = false := h it (List.mem_cons_self it items)
    have hrest : ∀ x ∈ items, insertRejected x = false :=
      fun x hx => h x (List.mem_cons_of_mem it hx)
    have hstep : insertAll (it :: items) cache =
        insertAll items (cache.insert (mkCandidate it)) := by
      simp [insertAll, insert_if_possible_eq, hit]
    have hlen' : (cache.insert (mkCandidate it)).entries.length ≤
        (cache.insert (mkCandidate it)).capacity := by
      simp [LRUCacheS.insert]
    obtain ⟨he, hc⟩ := ih (cache.insert (mkCandidate it)) hrest hlen'
    refine ⟨?_, by rw [hstep]; exact hc⟩
    rw [hstep, he]
    simp only [LRUCacheS.insert]
    rw [take_append_take, List.map_cons, List.reverse_cons, List.append_assoc]
    simp

theorem insertAll_length_le (items : List InsertArgs) :
    ∀ cache : LRUCacheS StyleSharingCandidate,
      cache.entries.length ≤ cache.capacity →
      (insertAll items cache).entries.length ≤ cache.capacity ∧
      (insertAll items cache).capacity = cache.capacity := by
  induction items with
  | nil => intro cache hlen; exact ⟨by simpa [insertAll] using hlen, rfl⟩
  | cons it items ih =>
    intro cache hlen
    have hstep : insertAll (it :: items) cache =
        insertAll items
          (StyleSharingCandidateCache.insert_if_possible cache it.element
            it.style it.relations it.reval) := by
      simp [insertAll]
    rw [hstep, insert_if_possible_eq]
    by_cases hrej : insertRejected it = true
    · simpa [hrej] using ih cache hlen
    · have hlen' : (cache.insert (mkCandidate it)).entries.length ≤
          (cache.insert (mkCandidate it)).capacity := by
        simp [LRUCacheS.insert]
      have := ih (cache.insert (mkCandidate it)) hlen'
      simpa [hrej, LRUCacheS.insert] using this

/-- Claim C4: `insert_if_possible` is a silent no-op exactly when the
element has no parent, is native-anonymous content, the match relations
include an id-selector, pseudo-element, style-attribute or
presentational-hint relation, or the computed box style specifies
transitions or animations; in every other case the element is admitted as
a candidate (inserted at the most-recently-used position). -/
theorem insert_if_possible_guards (cache : LRUCacheS StyleSharingCandidate)
    (element : Element) (style : ComputedValuesD) (relations : StyleRelations)
    (reval : Option (List Bool)) :
    StyleSharingCandidateCache.insert_if_possible cache element style relations
      reval =
      if element.parentId = none ∨ element.isNativeAnonymous = true ∨
         relations.affected_by_id_selector = true ∨
         relations.affected_by_pseudo_elements = true ∨
         relations.affected_by_style_attribute = true ∨
         relations.affected_by_presentational_hints = true ∨
         style.specifies_transitions = true ∨
         style.specifies_animations = true
      then cache
      else cache.insert ⟨element, none, reval⟩ := by
  rw [insert_if_possible_eq cache ⟨element, style, relations, reval⟩]
  have hiff : insertRejected ⟨element, style, relations, reval⟩ = true ↔
      (element.parentId = none ∨ element.isNativeAnonymous = true ∨
       relations.affected_by_id_selector = true ∨
       relations.affected_by_pseudo_elements = true ∨
       relations.affected_by_style_attribute = true ∨
       relations.affected_by_presentational_hints = true ∨
       style.specifies_transitions = true ∨
       style.specifies_animations = true) := by
    simp [insertRejected, relations_are_shareable, Option.isNone_iff_eq_none]
    tauto
  split_ifs with h₁ h₂ h₂
  · rfl
  · exact absurd (hiff.mp h₁) h₂
  · exact absurd h₁ (fun hc => hc (hiff.mpr h₂))
  · rfl

/-- Claim C3: the style sharing candidate cache never exceeds 8 entries;
after a sequence of shareable insertions with no touches it holds exactly
the 8 most recently inserted candidates (most recent first), and `clear`
(`evict_all`) always leaves zero entries. -/
theorem style_sharing_cache_lru_bound :
    (∀ items : List InsertArgs,
       (∀ it ∈ items, insertRejected it = false) →
       (insertAll items StyleSharingCandidateCache.new).entries =
         (items.map mkCandidate).reverse.take 8) ∧
    (∀ items : List InsertArgs,
       LRUCacheS.num_entries (insertAll items StyleSharingCandidateCache.new) ≤
         8) ∧
    (∀ cache : LRUCacheS StyleSharingCandidate,
       LRUCacheS.num_entries cache.evict_all = 0) := by
  refine ⟨?_, ?_, ?_⟩
  · intro items h
    have := (insertAll_entries items StyleSharingCandidateCache.new h
      (by simp [StyleSharingCandidateCache.new])).1
    simpa [StyleSharingCandidateCache.new, STYLE_SHARING_CANDIDATE_CACHE_SIZE]
      using this
  · intro items
    have := insertAll_length_le items StyleSharingCandidateCache.new
      (by simp [StyleSharingCandidateCache.new])
    simpa [LRUCacheS.num_entries, StyleSharingCandidateCache.new,
      STYLE_SHARING_CANDIDATE_CACHE_SIZE] using this.1
  · intro cache
    simp [LRUCacheS.num_entries, LRUCacheS.evict_all]

/-- Witness for C3 at a concrete input: nine shareable insertions leave
exactly the eight most recent candidates. -/
theorem style_sharing_cache_lru_bound_witness :
    (∀ it ∈ (List.range 9).map sampleInsertArgs, insertRejected it = false) ∧
    (insertAll ((List.range 9).map sampleInsertArgs)
        StyleSharingCandidateCache.new).entries =
      (((List.range 9).map sampleInsertArgs).map mkCandidate).reverse.take 8 :=
  ⟨by decide, style_sharing_cache_lru_bound.1 _ (by decide)⟩

theorem emc_shape (e : Element) (c : StyleSharingCandidate)
    (info : Option (List Bool)) :
    ((element_matches_candidate e c info).2.1).element = c.element ∧
    ((element_matches_candidate e c info).2.2 = info ∨
      (element_matches_candidate e c info).1 = .error .Revalidation ∨
      (element_matches_candidate e c info).1 = .ok c.element.primary) ∧
    ((element_matches_candidate e c info).1 = .error .Parent →
      element_matches_candidate e c info = (.error .Parent, c, info)) ∧
    (∀ s, (element_matches_candidate e c info).1 = .ok s →
      s = c.element.primary) ∧
    ((element_matches_candidate e c info).1 = .error .IdAttr ↔
      (e.parentId = c.element.parentId ∨
         same_computed_values e.parentValuesRef c.element.parentValuesRef =
           true) ∧
      e.isNativeAnonymous = false ∧
      e.localName = c.element.localName ∧
      e.nspace = c.element.nspace ∧
      e.isLink = c.element.isLink ∧
      e.matchesUserAndAuthorRules = c.element.matchesUserAndAuthorRules ∧
      e.state = c.element.state ∧
      e.idAttr ≠ c.element.idAttr) := by
  unfold element_matches_candidate
  by_cases h1 : e.parentId ≠ c.element.parentId ∧
      same_computed_values e.parentValuesRef c.element.parentValuesRef = false
  · rw [if_pos h1]
    refine ⟨rfl, Or.inl rfl, fun _ => rfl, ?_, ?_⟩ <;> simp_all
  rw [if_neg h1]
  by_cases h2 : e.isNativeAnonymous = true
  · rw [if_pos h2]
    refine ⟨rfl, Or.inl rfl, ?_, ?_, ?_⟩ <;> simp_all
  rw [if_neg h2]
  by_cases h3 : e.localName ≠ c.element.localName
  · rw [if_pos h3]
    refine ⟨rfl, Or.inl rfl, ?_, ?_, ?_⟩ <;> simp_all
  rw [if_neg h3]
  by_cases h4 : e.nspace ≠ c.element.nspace
  · rw [if_pos h4]
    refine ⟨rfl, Or.inl rfl, ?_, ?_, ?_⟩ <;> simp_all
  rw [if_neg h4]
  by_cases h5 : e.isLink ≠ c.element.isLink
  · rw [if_pos h5]
    refine ⟨rfl, Or.inl rfl, ?_, ?_, ?_⟩ <;> simp_all
  rw [if_neg h5]
  by_cases h6 : e.matchesUserAndAuthorRules ≠ c.element.matchesUserAndAuthorRules
  · rw [if_pos h6]
    refine ⟨rfl, Or.inl rfl, ?_, ?_, ?_⟩ <;> simp_all
  rw [if_neg h6]
  by_cases h7 : e.state ≠ c.element.state
  · rw [if_pos h7]
    refine ⟨rfl, Or.inl rfl, ?_, ?_, ?_⟩ <;> simp_all
  rw [if_neg h7]
  by_cases h8 : e.idAttr ≠ c.element.idAttr
  · rw [if_pos h8]
    refine ⟨rfl, Or.inl rfl, ?_, ?_, ?_⟩ <;> simp_all
    tauto
  rw [if_neg h8]
  by_cases h9 : e.styleAttr = true
  · rw [if_pos h9]
    refine ⟨rfl, Or.inl rfl, ?_, ?_, ?_⟩ <;> simp_all
  rw [if_neg h9]
  by_cases h10 : (have_same_class e c).1 = false
  · rw [if_pos h10]
    refine ⟨?_, Or.inl rfl, ?_, ?_, ?_⟩ <;> simp_all [have_same_class]
  rw [if_neg h10]
  by_cases h11 : e.presHints = true
  · rw [if_pos h11]
    refine ⟨?_, Or.inl rfl, ?_, ?_, ?_⟩ <;> simp_all [have_same_class]
  rw [if_neg h11]
  by_cases h12 : (revalidate e (have_same_class e c).2 info).1 = false
  · rw [if_pos h12]
    refine ⟨?_, Or.inr (Or.inl rfl), ?_, ?_, ?_⟩ <;>
      simp_all [have_same_class, revalidate]
  rw [if_neg h12]
  refine ⟨?_, Or.inr (Or.inr rfl), ?_, ?_, ?_⟩ <;>
    simp_all [have_same_class, revalidate]

theorem emc_element_eq (e : Element) (c : StyleSharingCandidate)
    (info : Option (List Bool)) :
    ((element_matches_candidate e c info).2.1).element = c.element :=
  (emc_shape e c info).1

theorem emc_info_cases (e : Element) (c : StyleSharingCandidate)
    (info : Option (List Bool)) :
    (element_matches_candidate e c info).2.2 = info ∨
    (element_matches_candidate e c info).1 = .error .Revalidation ∨
    ∃ s, (element_matches_candidate e c info).1 = .ok s := by
  rcases (emc_shape e c info).2.1 with h | h | h
  · exact Or.inl h
  · exact Or.inr (Or.inl h)
  · exact Or.inr (Or.inr ⟨_, h⟩)

theorem emc_parent_shape (e : Element) (c : StyleSharingCandidate)
    (info : Option (List Bool))
    (h : (element_matches_candidate e c info).1 = .error .Parent) :
    element_matches_candidate e c info = (.error .Parent, c, info) :=
  (emc_shape e c info).2.2.1 h

theorem scanLoop_nil (host : Host) (e : Element) (shared : SharedContextD)
    (data : ElementDataS) (info : Option (List Bool)) (i : Nat) :
    scanLoop host e shared data info i [] =
      some ⟨.CannotShare, [], false, info, data⟩ := rfl

theorem scanLoop_cont (host : Host) (e : Element) (shared : SharedContextD)
    (data : ElementDataS) (info : Option (List Bool)) (i : Nat)
    (c : StyleSharingCandidate) (rest : List StyleSharingCandidate)
    (h : stepClass e info c = .cont) :
    scanLoop host e shared data info i (c :: rest) =
      (scanLoop host e shared data info (i + 1) rest).map
        (fun s =>
          { s with cands := (element_matches_candidate e c info).2.1 :: s.cands }) := by
  rcases hemc : element_matches_candidate e c info with ⟨r, c', i'⟩
  have hstep := h
  unfold stepClass at hstep
  rw [hemc] at hstep
  dsimp only at hstep
  have hinfo : i' = info := by
    rcases emc_info_cases e c info with hi | hi | ⟨s, hi⟩
    · rw [hemc] at hi; exact hi
    · rw [hemc] at hi; dsimp only at hi; subst hi; simp at hstep
    · rw [hemc] at hi; dsimp only at hi; subst hi; simp at hstep
  subst hinfo
  cases r with
  | ok s => simp at hstep
  | error m =>
    cases m <;> first
      | (simp at hstep
         done)
      | simp [scanLoop, hemc]

theorem scanLoop_parent (host : Host) (e : Element) (shared : SharedContextD)
    (data : ElementDataS) (info : Option (List Bool)) (i : Nat)
    (c : StyleSharingCandidate) (rest : List StyleSharingCandidate)
    (h : stepClass e info c = .parent) :
    scanLoop host e shared data info i (c :: rest) =
      some ⟨.CannotShare, c :: rest, true, info, data⟩ := by
  rcases hemc : element_matches_candidate e c info with ⟨r, c', i'⟩
  have hstep := h
  unfold stepClass at hstep
  rw [hemc] at hstep
  dsimp only at hstep
  cases r with
  | ok s => simp at hstep
  | error m =>
    cases m <;> first
      | (simp at hstep
         done)
      | (have hshape := emc_parent_shape e c info (by rw [hemc])
         simp [scanLoop, hshape])

theorem scanLoop_stop (host : Host) (e : Element) (shared : SharedContextD)
    (data : ElementDataS) (info : Option (List Bool)) (i : Nat)
    (c : StyleSharingCandidate) (rest : List StyleSharingCandidate)
    (h : stepClass e info c = .stop) :
    ∃ c' info', scanLoop host e shared data info i (c :: rest) =
      some ⟨.CannotShare, c' :: rest, false, info', data⟩ := by
  rcases hemc : element_matches_candidate e c info with ⟨r, c', i'⟩
  have hstep := h
  unfold stepClass at hstep
  rw [hemc] at hstep
  dsimp only at hstep
  cases r with
  | ok s => simp at hstep
  | error m => cases m <;> simp_all <;> exact ⟨c', i', by simp [scanLoop, hemc]⟩

theorem scanLoop_hit (host : Host) (e : Element) (shared : SharedContextD)
    (data : ElementDataS) (info : Option (List Bool)) (i : Nat)
    (c : StyleSharingCandidate) (rest : List StyleSharingCandidate)
    (h : stepClass e info c = .hit)
    (hv : c.element.primary.values.isSome = true) :
    ∃ req c' info' data', scanLoop host e shared data info i (c :: rest) =
      some ⟨.StyleWasShared i req, c' :: rest, false, info', data'⟩ ∧
      c'.element = c.element := by
  rcases hemc : element_matches_candidate e c info with ⟨r, c', i'⟩
  have hstep := h
  unfold stepClass at hstep
  rw [hemc] at hstep
  dsimp only at hstep
  cases r with
  | error m => cases m <;> simp_all
  | ok s =>
    have hs : s = c.element.primary :=
      (emc_shape e c info).2.2.2.1 s (by rw [hemc])
    subst hs
    rcases harc : c.element.primary.values with _ | arc
    · rw [harc] at hv; simp at hv
    · have hel : c'.element = c.element := by
        have := emc_element_eq e c info
        rw [hemc] at this
        exact this
      refine ⟨(accumulate_damage host shared data.restyle
          ((data.styles.bind fun s => s.primary.values).map (fun v => v.vals))
          arc.vals none e.damage_source).1, c', i',
        ⟨some ⟨c.element.primary, []⟩,
         (accumulate_damage host shared data.restyle
          ((data.styles.bind fun s => s.primary.values).map (fun v => v.vals))
          arc.vals none e.damage_source).2⟩, ?_, hel⟩
      simp [scanLoop, hemc, harc]

theorem scanLoop_cont_segment (host : Host) (e : Element)
    (shared : SharedContextD) (data : ElementDataS) (info : Option (List Bool))
    (pre : List StyleSharingCandidate) :
    ∀ (i : Nat) (rest : List StyleSharingCandidate),
      (∀ a ∈ pre, stepClass e info a = .cont) →
      scanLoop host e shared data info i (pre ++ rest) =
        (scanLoop host e shared data info (i + pre.length) rest).map
          (fun s =>
            { s with
              cands :=
                pre.map (fun a => (element_matches_candidate e a info).2.1) ++
                  s.cands }) := by
  induction pre with
  | nil =>
    intro i rest _
    cases scanLoop host e shared data info (i + 0) rest <;> simp
  | cons a pre ih =>
    intro i rest h
    have ha : stepClass e info a = .cont := h a (List.mem_cons_self a pre)
    have hpre : ∀ x ∈ pre, stepClass e info x = .cont :=
      fun x hx => h x (List.mem_cons_of_mem a hx)
    rw [List.cons_append, scanLoop_cont host e shared data info i a (pre ++ rest) ha,
        ih (i + 1) rest hpre]
    have hidx : i + 1 + pre.length = i + (a :: pre).length := by
      simp [List.length_cons]; omega
    rw [hidx, Option.map_map]
    cases scanLoop host e shared data info (i + (a :: pre).length) rest <;>
      simp [Function.comp]

theorem share_guards_pass (host : Host) (e : Element) (shared : SharedContextD)
    (cache : LRUCacheS StyleSharingCandidate) (info : Option (List Bool))
    (data : ElementDataS) (hg : entryGuardsPass e shared) :
    share_style_if_possible host e shared cache info data =
      (scanLoop host e shared data info 0 cache.entries).map
        (fun s =>
          (s.result,
           if s.should_clear then cache.evict_all
           else { cache with entries := s.cands },
           s.info, s.data)) := by
  obtain ⟨h1, h2, h3, h4, h5⟩ := hg
  unfold share_style_if_possible
  have h2' : e.parentId.isNone = false := by
    cases hp : e.parentId
    · rw [hp] at h2; simp at h2
    · simp
  simp [h1, h2', h3, h4, h5]

theorem share_style_early_return (host : Host) (e : Element)
    (shared : SharedContextD) (cache : LRUCacheS StyleSharingCandidate)
    (info : Option (List Bool)) (data : ElementDataS)
    (h : shared.disable_style_sharing_cache = true ∨ e.parentId = none ∨
         e.isNativeAnonymous = true ∨ e.styleAttr = true ∨
         e.idAttr.isSome = true) :
    share_style_if_possible host e shared cache info data =
      some (.CannotShare, cache, info, data) := by
  unfold share_style_if_possible
  split_ifs <;> simp_all [Option.isNone_iff_eq_none]

/-- Claim C2: during the candidate scan of `share_style_if_possible`, a
`Parent` miss stops the scan and leaves the cache with zero entries for the
next call; a `PresHints` or `Revalidation` miss stops the scan for this
element without clearing the cache; every other miss reason advances to the
next candidate without stopping or clearing, so an all-advancing scan ends
with `CannotShare` and the same number of entries. -/
theorem share_style_miss_policy :
    (∀ (host : Host) (e : Element) (shared : SharedContextD)
       (data : ElementDataS) (info : Option (List Bool)) (cap : Nat)
       (pre : List StyleSharingCandidate) (c : StyleSharingCandidate)
       (post : List StyleSharingCandidate),
       entryGuardsPass e shared →
       (∀ a ∈ pre, stepClass e info a = .cont) →
       stepClass e info c = .parent →
       share_style_if_possible host e shared ⟨pre ++ c :: post, cap⟩ info
           data =
         some (.CannotShare, ⟨[], cap⟩, info, data)) ∧
    (∀ (host : Host) (e : Element) (shared : SharedContextD)
       (data : ElementDataS) (info : Option (List Bool)) (cap : Nat)
       (pre : List StyleSharingCandidate) (c : StyleSharingCandidate)
       (post : List StyleSharingCandidate),
       entryGuardsPass e shared →
       (∀ a ∈ pre, stepClass e info a = .cont) →
       stepClass e info c = .stop →
       ∃ cands' info',
         share_style_if_possible host e shared ⟨pre ++ c :: post, cap⟩ info
             data =
           some (.CannotShare, ⟨cands', cap⟩, info', data) ∧
         cands'.length = (pre ++ c :: post).length) ∧
    (∀ (host : Host) (e : Element) (shared : SharedContextD)
       (data : ElementDataS) (info : Option (List Bool)) (cap : Nat)
       (cands : List StyleSharingCandidate),
       entryGuardsPass e shared →
       (∀ a ∈ cands, stepClass e info a = .cont) →
       ∃ cands',
         share_style_if_possible host e shared ⟨cands, cap⟩ info data =
           some (.CannotShare, ⟨cands', cap⟩, info, data) ∧
         cands'.length = cands.length) := by
  refine ⟨?_, ?_, ?_⟩
  · intro host e shared data info cap pre c post hg hpre hc
    rw [share_guards_pass host e shared _ info data hg]
    show (scanLoop host e shared data info 0 (pre ++ c :: post)).map _ = _
    rw [scanLoop_cont_segment host e shared data info pre 0 (c :: post) hpre,
        scanLoop_parent host e shared data info (0 + pre.length) c post hc]
    simp [LRUCacheS.evict_all]
  · intro host e shared data info cap pre c post hg hpre hc
    obtain ⟨c', info', hstop⟩ :=
      scanLoop_stop host e shared data info (0 + pre.length) c post hc
    refine ⟨pre.map (fun a => (element_matches_candidate e a info).2.1) ++
        c' :: post, info', ?_, by simp⟩
    rw [share_guards_pass host e shared _ info data hg]
    show (scanLoop host e shared data info 0 (pre ++ c :: post)).map _ = _
    rw [scanLoop_cont_segment host e shared data info pre 0 (c :: post) hpre,
        hstop]
    simp
  · intro host e shared data info cap cands hg hcont
    refine ⟨cands.map (fun a => (element_matches_candidate e a info).2.1),
      ?_, by simp⟩
    rw [share_guards_pass host e shared _ info data hg]
    show (scanLoop host e shared data info 0 cands).map _ = _
    rw [show cands = cands ++ [] from (List.append_nil cands).symm,
        scanLoop_cont_segment host e shared data info cands 0 [] hcont,
        scanLoop_nil]
    simp

/-- Witness for C2 at concrete inputs: a Parent miss after one advancing
miss clears the cache; a Revalidation miss keeps both entries; a scan of
advancing misses only keeps its single entry. -/
theorem share_style_miss_policy_witness :
    share_style_if_possible sampleHost sampleElement sampleShared
        ⟨[candLocalName] ++ candParent :: [candHit], 8⟩ none sampleData =
      some (.CannotShare, ⟨[], 8⟩, none, sampleData) ∧
    (∃ cands' info',
       share_style_if_possible sampleHost sampleElement sampleShared
           ⟨[] ++ candRevalidation :: [candLocalName], 8⟩ none sampleData =
         some (.CannotShare, ⟨cands', 8⟩, info', sampleData) ∧
       cands'.length = ([] ++ candRevalidation :: [candLocalName]).length) ∧
    (∃ cands',
       share_style_if_possible sampleHost sampleElement sampleShared
           ⟨[candLocalName], 8⟩ none sampleData =
         some (.CannotShare, ⟨cands', 8⟩, none, sampleData) ∧
       cands'.length = 1) :=
  ⟨share_style_miss_policy.1 sampleHost sampleElement sampleShared sampleData
     none 8 [candLocalName] candParent [candHit] (by decide) (by decide)
     (by decide),
   share_style_miss_policy.2.1 sampleHost sampleElement sampleShared
     sampleData none 8 [] candRevalidation [candLocalName] (by decide)
     (by decide) (by decide),
   share_style_miss_policy.2.2 sampleHost sampleElement sampleShared
     sampleData none 8 [candLocalName] (by decide) (by decide)⟩

/-- Claim C10: `share_style_if_possible` returns `CannotShare` without
examining any cache candidate and without modifying the cache (or the
element data, or the cached revalidation state) whenever style sharing is
disabled, the element has no parent, is native-anonymous content, has an
inline style attribute, or has an id attribute. -/
theorem share_style_entry_guards (host : Host) (e : Element)
    (shared : SharedContextD) (cache : LRUCacheS StyleSharingCandidate)
    (info : Option (List Bool)) (data : ElementDataS)
    (h : shared.disable_style_sharing_cache = true ∨ e.parentId = none ∨
         e.isNativeAnonymous = true ∨ e.styleAttr = true ∨
         e.idAttr.isSome = true) :
    share_style_if_possible host e shared cache info data =
      some (.CannotShare, cache, info, data) :=
  share_style_early_return host e shared cache info data h

/-- Witness for C10 at a concrete input: with the cache option disabled the
cache and data come back untouched. -/
theorem share_style_entry_guards_witness :
    share_style_if_possible sampleHost sampleElement sampleSharedDisabled
      ⟨[candHit], 8⟩ none sampleData =
      some (.CannotShare, ⟨[candHit], 8⟩, none, sampleData) :=
  share_style_entry_guards sampleHost sampleElement sampleSharedDisabled
    ⟨[candHit], 8⟩ none sampleData (by decide)

/-- Claim C1 (amended): `element_matches_candidate` fails with `IdAttr`
exactly when the first seven checks pass and the element's and the
candidate's id attributes differ — a pair carrying the same id passes the
id check.  An element that itself carries an id never reaches the match
through `share_style_if_possible`: the entry guard returns `CannotShare`
with the cache, data and revalidation state untouched, so as reached
through `share_style_if_possible` the element has no id and a candidate
carrying any id differs from it and yields the `IdAttr` miss. -/
theorem element_matches_candidate_id_handling :
    (∀ (e : Element) (c : StyleSharingCandidate) (info : Option (List Bool)),
       (element_matches_candidate e c info).1 =
           Except.error CacheMiss.IdAttr ↔
         (e.parentId = c.element.parentId ∨
            same_computed_values e.parentValuesRef c.element.parentValuesRef =
              true) ∧
         e.isNativeAnonymous = false ∧
         e.localName = c.element.localName ∧
         e.nspace = c.element.nspace ∧
         e.isLink = c.element.isLink ∧
         e.matchesUserAndAuthorRules = c.element.matchesUserAndAuthorRules ∧
         e.state = c.element.state ∧
         e.idAttr ≠ c.element.idAttr) ∧
    (∀ (host : Host) (e : Element) (shared : SharedContextD)
       (cache : LRUCacheS StyleSharingCandidate) (info : Option (List Bool))
       (data : ElementDataS),
       e.idAttr.isSome = true →
       share_style_if_possible host e shared cache info data =
         some (.CannotShare, cache, info, data)) :=
  ⟨fun e c info => (emc_shape e c info).2.2.2.2,
   fun host e shared cache info data h =>
     share_style_early_return host e shared cache info data
       (Or.inr (Or.inr (Or.inr (Or.inr h))))⟩

/-- Counterexample for C1 as stated: an element and a candidate that both
carry the id attribute `5` (and agree on every other dimension) do not
produce the `IdAttr` miss — the match succeeds. -/
theorem element_matches_candidate_same_id_counterexample :
    sampleElementWithId.idAttr = some 5 ∧
    candSameId.element.idAttr = some 5 ∧
    (element_matches_candidate sampleElementWithId candSameId none).1 ≠
      Except.error CacheMiss.IdAttr := by
  have hok : (element_matches_candidate sampleElementWithId candSameId
      none).1 = Except.ok candSameId.element.primary := by rfl
  exact ⟨rfl, rfl, by simp [hok]⟩

/-- Witness for C1 (amended) at a concrete input: an element carrying an id
is turned away by the entry guard before any candidate is examined. -/
theorem element_matches_candidate_id_handling_witness :
    share_style_if_possible sampleHost sampleElementWithId sampleShared
      ⟨[candHit], 8⟩ none sampleData =
      some (.CannotShare, ⟨[candHit], 8⟩, none, sampleData) :=
  element_matches_candidate_id_handling.2 sampleHost sampleElementWithId
    sampleShared ⟨[candHit], 8⟩ none sampleData (by decide)

/-- Counterexample for C8 as stated: on a hit at index 1 the returned cache
still lists the matched candidate (element handle 21) second — the entry
was not moved to the most-recently-used position by
`share_style_if_possible` itself. -/
theorem share_style_no_touch_counterexample :
    (share_style_if_possible sampleHost sampleElement sampleShared
        ⟨[candLocalName, candHit], 8⟩ none sampleData).map
        (fun out =>
          (out.1, out.2.1.entries.map (fun cand => cand.element.handle))) =
      some (.StyleWasShared 1 .MustCascade, [20, 21]) := by decide

/-- Claim C8 (amended): when the scan finds its first match at index i,
`share_style_if_possible` returns `StyleWasShared(i, _)` with the cache
order unchanged (the matched entry is not moved); the returned index lets
the caller perform the LRU maintenance, and `touch(i)` moves the entry at
index i to the most-recently-used position. -/
theorem share_style_reports_match_index_for_touch :
    (∀ (host : Host) (e : Element) (shared : SharedContextD)
       (data : ElementDataS) (info : Option (List Bool)) (cap : Nat)
       (pre : List StyleSharingCandidate) (c : StyleSharingCandidate)
       (post : List StyleSharingCandidate),
       entryGuardsPass e shared →
       (∀ a ∈ pre, stepClass e info a = .cont) →
       stepClass e info c = .hit →
       c.element.primary.values.isSome = true →
       ∃ req cands' info' data',
         share_style_if_possible host e shared ⟨pre ++ c :: post, cap⟩ info
             data =
           some (.StyleWasShared pre.length req, ⟨cands', cap⟩, info',
             data') ∧
         cands'.map (fun cand => cand.element) =
           (pre ++ c :: post).map (fun cand => cand.element)) ∧
    (∀ (cache : LRUCacheS StyleSharingCandidate) (index : Nat)
       (x : StyleSharingCandidate),
       cache.entries[index]? = some x →
       (cache.touch index).entries = x :: cache.entries.eraseIdx index) := by
  constructor
  · intro host e shared data info cap pre c post hg hpre hc hv
    obtain ⟨req, c', info', data', hhit, hel⟩ :=
      scanLoop_hit host e shared data info (0 + pre.length) c post hc hv
    refine ⟨req,
      pre.map (fun a => (element_matches_candidate e a info).2.1) ++
        c' :: post, info', data', ?_, ?_⟩
    · rw [share_guards_pass host e shared _ info data hg]
      show (scanLoop host e shared data info 0 (pre ++ c :: post)).map _ = _
      rw [scanLoop_cont_segment host e shared data info pre 0 (c :: post) hpre,
          hhit]
      simp
    · rw [List.map_append, List.map_append, List.map_map, List.map_cons,
          List.map_cons, hel]
      congr 1
      apply List.map_congr_left
      intro a _
      exact emc_element_eq e a info
  · intro cache index x h
    simp [LRUCacheS.touch, h]

/-- Witness for C8 (amended) at a concrete input: the hit at index 1
reports that index with the order unchanged, and `touch 1` moves the entry
to the front. -/
theorem share_style_reports_match_index_for_touch_witness :
    (∃ req cands' info' data',
       share_style_if_possible sampleHost sampleElement sampleShared
           ⟨[candLocalName] ++ candHit :: [], 8⟩ none sampleData =
         some (.StyleWasShared 1 req, ⟨cands', 8⟩, info', data') ∧
       cands'.map (fun cand => cand.element) =
         ([candLocalName] ++ candHit :: []).map (fun cand => cand.element)) ∧
    (LRUCacheS.touch ⟨[candLocalName, candHit], 8⟩ 1).entries =
      candHit :: [candLocalName] :=
  ⟨share_style_reports_match_index_for_touch.1 sampleHost sampleElement
     sampleShared sampleData none 8 [candLocalName] candHit [] (by decide)
     (by decide) (by decide) (by decide),
   share_style_reports_match_index_for_touch.2 ⟨[candLocalName, candHit], 8⟩
     1 candHit (by decide)⟩

end Servo
